import Mathlib

/-!
# Issue-deduplication embedding cache: a verification development

This file gives a shallow embedding of the issue-deduplication service of
the repository (the `refresh` / `duplicates` operations documented in
`src/token-exchange/README.md` and `src/workflows/issue-triage/README.md`,
whose server implementation ships outside this tree), together with a
model of the argument parsing and initial validation phase of
`src/scripts/issue-deduplication/setup_alloydb.sh`, and proves functional
properties about both.

Timestamps are naturals (epoch = 0), vectors are lists of rationals, and
the similarity metric is a parameter (the deployment fixes it; the spec
treats it as pluggable).
-/

namespace Dedup

/-- Modelled from the spec: `IssueRecord` — transient snapshot of one issue
as fetched from the issue tracker (§3 of the spec); the MCP server that
consumes it is not part of this tree. -/
structure IssueRecord where
  repo : String
  number : Nat
  title : String
  body : String
  comments : List String
  lastModified : Nat
  deriving Repr, DecidableEq

/-- ASCII whitespace, as trimmed from the ends of the canonical string. -/
def isWS (c : Char) : Bool := c = ' ' ∨ c = '\t' ∨ c = '\n' ∨ c = '\r'

/-- Strip leading and trailing whitespace (a structurally recursive
equivalent of `String.trim`). -/
def trimString (s : String) : String :=
  String.mk (((s.data.dropWhile isWS).reverse.dropWhile isWS).reverse)

/-- Join strings with a newline separator. -/
def joinLines : List String → String
  | [] => ""
  | [x] => x
  | x :: rest => x ++ "\n" ++ joinLines rest

/-- Modelled from the spec: the Content Normalizer (§4.1) — canonical
string built by concatenating title, body and comment bodies in a fixed
order with a fixed separator, trimming leading/trailing whitespace, and
no other transformation. -/
def normalize (r : IssueRecord) : String :=
  trimString (r.title ++ "\n" ++ r.body ++ "\n" ++ joinLines r.comments)

/-- Modelled from the spec: the ContentFingerprint (§3) — a deterministic
digest of the normalized content. The digest is modelled as the canonical
string itself (an injective, hence collision-free, digest — the best case
for the fingerprint invariants). -/
def fingerprint (r : IssueRecord) : String :=
  normalize r

/-- Modelled from the spec: a persistent `EmbeddingEntry` (§3), keyed by
(repository, issue number). -/
structure EmbeddingEntry where
  repo : String
  number : Nat
  title : String
  fingerprint : String
  vector : List ℚ
  lastRefreshed : Nat
  isOpen : Bool
  deriving Repr, DecidableEq

/-- Modelled from the spec: the Embedding Store state (§4.3): entries plus
per-repository refresh watermarks (`RepositoryRefreshState`). -/
structure StoreState where
  entries : List EmbeddingEntry
  refreshState : List (String × Nat)
  deriving Repr, DecidableEq

/-- The empty store. -/
def StoreState.empty : StoreState := ⟨[], []⟩

/-- Look up the entry for (repository, issue number): first match in the
entry list. -/
def getEntry (s : StoreState) (repo : String) (n : Nat) : Option EmbeddingEntry :=
  s.entries.find? (fun e => decide (e.repo = repo ∧ e.number = n))

/-- Modelled from the spec: `getFingerprints` (§4.3), per single key —
missing entries return no fingerprint. -/
def getFingerprint (s : StoreState) (repo : String) (n : Nat) : Option String :=
  (getEntry s repo n).map (fun e => e.fingerprint)

/-- Replace the first entry with the given key, or append a new one. -/
def upsertEntries (repo : String) (n : Nat) (ne : EmbeddingEntry) :
    List EmbeddingEntry → List EmbeddingEntry
  | [] => [ne]
  | e :: rest =>
    if e.repo = repo ∧ e.number = n then ne :: rest
    else e :: upsertEntries repo n ne rest

/-- Modelled from the spec: `upsert` (§4.3) — idempotent: if an entry with
an identical fingerprint exists this is a no-op (success without
rewriting); otherwise the entry is replaced atomically. -/
def upsert (s : StoreState) (repo : String) (n : Nat) (title : String) (fp : String)
    (v : List ℚ) (opn : Bool) (ts : Nat) : StoreState :=
  match getEntry s repo n with
  | some e =>
    if e.fingerprint = fp then s
    else { s with entries := upsertEntries repo n ⟨repo, n, title, fp, v, ts, opn⟩ s.entries }
  | none => { s with entries := upsertEntries repo n ⟨repo, n, title, fp, v, ts, opn⟩ s.entries }

/-- Modelled from the spec: `getRefreshState` (§4.3) — the stored
watermark, the epoch (0) when none is stored. -/
def getRefreshState (s : StoreState) (repo : String) : Nat :=
  match s.refreshState.find? (fun p => decide (p.1 = repo)) with
  | some p => p.2
  | none => 0

/-- Modelled from the spec: `setRefreshState` (§4.3) — only advances the
watermark, never regresses it. -/
def setRefreshState (s : StoreState) (repo : String) (t : Nat) : StoreState :=
  { s with refreshState :=
      (repo, max (getRefreshState s repo) t) :: s.refreshState.filter (fun p => decide (p.1 ≠ repo)) }

/-- Modelled from the spec: the explicit forced-refresh reset of the
watermark to the epoch (§3). -/
def resetRefreshState (s : StoreState) (repo : String) : StoreState :=
  { s with refreshState := (repo, 0) :: s.refreshState.filter (fun p => decide (p.1 ≠ repo)) }

/-- One ranked duplicate: candidate issue number, title, similarity score. -/
structure DupItem where
  number : Nat
  title : String
  score : ℚ
  deriving Repr, DecidableEq

/-- Modelled from the spec: `DuplicateResult` (§3). -/
structure DuplicateResult where
  issueNumber : Nat
  repo : String
  duplicates : List DupItem
  deriving Repr, DecidableEq

/-- Ranking order of §4.5: descending by score, ties broken by ascending
issue number. -/
def dupLE (a b : DupItem) : Prop :=
  b.score < a.score ∨ (a.score = b.score ∧ a.number ≤ b.number)

instance : DecidableRel dupLE := fun a b =>
  decidable_of_iff (b.score < a.score ∨ (a.score = b.score ∧ a.number ≤ b.number)) Iff.rfl

instance : IsTotal DupItem dupLE := by
  constructor
  intro a b
  rcases lt_trichotomy a.score b.score with h | h | h
  · exact Or.inr (Or.inl h)
  · rcases Nat.le_total a.number b.number with hn | hn
    · exact Or.inl (Or.inr ⟨h, hn⟩)
    · exact Or.inr (Or.inr ⟨h.symm, hn⟩)
  · exact Or.inl (Or.inl h)

instance : IsTrans DupItem dupLE := by
  constructor
  intro a b c hab hbc
  rcases hab with hab | ⟨hab, hab'⟩
  · rcases hbc with hbc | ⟨hbc, _⟩
    · exact Or.inl (hbc.trans hab)
    · exact Or.inl (hbc ▸ hab)
  · rcases hbc with hbc | ⟨hbc, hbc'⟩
    · exact Or.inl (hab ▸ hbc)
    · exact Or.inr ⟨hab.trans hbc, hab'.trans hbc'⟩

instance {ε α : Type} [DecidableEq ε] [DecidableEq α] : DecidableEq (Except ε α) := fun a b =>
  match a, b with
  | Except.ok x, Except.ok y => decidable_of_iff (x = y) (by simp)
  | Except.error x, Except.error y => decidable_of_iff (x = y) (by simp)
  | Except.ok _, Except.error _ => isFalse (fun h => Except.noConfusion h)
  | Except.error _, Except.ok _ => isFalse (fun h => Except.noConfusion h)

/-- Errors of the `duplicates` read path (§7). -/
inductive DupError where
  | notIndexed
  deriving Repr, DecidableEq

/-- Outcome of a `duplicates` call: result, the store as left behind by
the call, and how many embedding-client calls the read path made. -/
structure DupOutcome where
  result : Except DupError DuplicateResult
  store : StoreState
  embedCalls : Nat
  deriving Repr

/-- Modelled from the spec: the Similarity Search Engine `duplicates`
operation (§4.5). Fetch the target's cached embedding — absent means
`NotIndexed`, never embed-on-the-fly; rank open entries of the repository
(excluding the target) by the similarity metric `sim`; keep scores at or
above the threshold; sort descending by score, ties by ascending issue
number. -/
def duplicates (sim : List ℚ → List ℚ → ℚ) (s : StoreState) (repo : String)
    (n : Nat) (threshold : ℚ) : DupOutcome :=
  match getEntry s repo n with
  | none => ⟨Except.error DupError.notIndexed, s, 0⟩
  | some tgt =>
    let cands := s.entries.filter (fun e => decide (e.repo = repo ∧ e.isOpen = true ∧ e.number ≠ n))
    let scored := cands.map (fun e => DupItem.mk e.number e.title (sim tgt.vector e.vector))
    let kept := scored.filter (fun d => decide (threshold ≤ d.score))
    ⟨Except.ok ⟨n, repo, List.insertionSort dupLE kept⟩, s, 0⟩

/-- Errors of the `refresh` write path (§7). -/
inductive RefreshError where
  | sourceUnavailable
  deriving Repr, DecidableEq

/-- Counts returned by `refresh` (§6): issues successfully processed and
per-issue failures. -/
structure RefreshResult where
  processed : Nat
  failed : Nat
  deriving Repr, DecidableEq

/-- Outcome of a `refresh` call: result, the store as left behind, and
the issue numbers for which the embedding client was called (in call
order). -/
structure RefreshOutcome where
  result : Except RefreshError RefreshResult
  store : StoreState
  calls : List Nat
  deriving Repr

/-- An issue tracker oracle: `listOpenIssuesUpdatedSince` (§6); `error`
models a total fetch failure. -/
def Tracker : Type := String → Nat → Except Unit (List IssueRecord)

/-- An embedding client oracle: `embed text` (§4.2); `error` models
`RemoteUnavailable` after retries are exhausted. -/
def Embedder : Type := String → Except Unit (List ℚ)

/-- Accumulator state while processing one fetched batch. -/
structure ProcState where
  store : StoreState
  processed : Nat
  failed : Nat
  calls : List Nat
  deriving Repr

/-- Modelled from the spec: one step of the Refresh Coordinator loop
(§4.4 steps 2–4): compute the fingerprint; skip when it matches the
stored one (unless `force`); otherwise call the embedding client, and on
success upsert, on failure record it and continue. -/
def processIssue (embedder : Embedder) (repo : String) (force : Bool)
    (st : ProcState) (r : IssueRecord) : ProcState :=
  if force = false ∧ getFingerprint st.store repo r.number = some (fingerprint r) then st
  else
    match embedder (normalize r) with
    | Except.ok v =>
      { store := upsert st.store repo r.number r.title (fingerprint r) v true r.lastModified
        processed := st.processed + 1
        failed := st.failed
        calls := st.calls ++ [r.number] }
    | Except.error _ =>
      { st with failed := st.failed + 1, calls := st.calls ++ [r.number] }

/-- Maximum last-modified timestamp observed in a batch (0 for an empty
batch). -/
def maxLastModified (batch : List IssueRecord) : Nat :=
  batch.foldl (fun a r => max a r.lastModified) 0

/-- Modelled from the spec: the fetch window of §4.4 step 1 — the epoch
when `force`, the stored watermark otherwise. -/
def refreshWindow (s : StoreState) (repo : String) (force : Bool) : Nat :=
  if force then 0 else getRefreshState s repo

/-- Modelled from the spec: the Refresh Coordinator `refresh` operation
(§4.4). Fetch the window (all open issues when forced); on a total fetch
failure abort with `SourceUnavailable` leaving the store untouched; on a
forced refresh reset the watermark to the epoch; process the batch
issue by issue; finally advance the watermark to the maximum
last-modified timestamp observed in the batch (not to "now"). -/
def refresh (tracker : Tracker) (embedder : Embedder) (s : StoreState)
    (repo : String) (force : Bool) : RefreshOutcome :=
  match tracker repo (refreshWindow s repo force) with
  | Except.error _ => ⟨Except.error RefreshError.sourceUnavailable, s, []⟩
  | Except.ok batch =>
    let s0 := if force then resetRefreshState s repo else s
    let fin := batch.foldl (processIssue embedder repo force) ⟨s0, 0, 0, []⟩
    let s1 := if batch.isEmpty then fin.store
              else setRefreshState fin.store repo (maxLastModified batch)
    ⟨Except.ok ⟨fin.processed, fin.failed⟩, s1, fin.calls⟩

/-- Did the embedding call for this record succeed? -/
def embOk (embedder : Embedder) (r : IssueRecord) : Bool :=
  match embedder (normalize r) with
  | Except.ok _ => true
  | Except.error _ => false

/-- The partition test of §4.4 step 3: does this record need (re-)embedding
relative to the given store? -/
def needsEmbed (s : StoreState) (repo : String) (force : Bool) (r : IssueRecord) : Bool :=
  decide (¬(force = false ∧ getFingerprint s repo r.number = some (fingerprint r)))



/-! ### Concrete fixtures (used by the witness theorems) -/

/-- Fixture issue #1 of the spec scenario (§8). -/
def wIssue1 : IssueRecord :=
  ⟨"acme/widgets", 1, "Crash on startup", "App crashes immediately", [], 5⟩

/-- Fixture issue #2 of the spec scenario (§8). -/
def wIssue2 : IssueRecord :=
  ⟨"acme/widgets", 2, "App crashes at launch", "Crashes right after opening", [], 7⟩

/-- Fixture issue #3. -/
def wIssue3 : IssueRecord :=
  ⟨"acme/widgets", 3, "Docs typo", "Fix readme", [], 6⟩

/-- Fixture issue tracker: serves the three fixture issues of
`acme/widgets`, filtered by the requested window. -/
def wTracker : Tracker := fun r t =>
  if r = "acme/widgets" then
    Except.ok (([wIssue1, wIssue2, wIssue3]).filter (fun x => decide (t ≤ x.lastModified)))
  else Except.ok []

/-- Fixture issue tracker whose fetch always fails. -/
def wTrackerFail : Tracker := fun _ _ => Except.error ()

/-- Fixture embedding client: always succeeds. -/
def wEmbed : Embedder := fun _ => Except.ok [1, 0]

/-- Fixture embedding client: fails (RemoteUnavailable) exactly on the
text of fixture issue #2. -/
def wEmbedFail2 : Embedder := fun t =>
  if t = normalize wIssue2 then Except.error () else Except.ok [1, 0]

/-- Fixture similarity metric: 1 on identical vectors, 0 otherwise. -/
def wSim : List ℚ → List ℚ → ℚ := fun u v => if u = v then 1 else 0

/-- Fixture store entry for issue #1 (the query target). -/
def wEntry1 : EmbeddingEntry :=
  ⟨"acme/widgets", 1, "Crash on startup", "fpA", [1, 0], 5, true⟩

/-- Fixture store entry for issue #2 (same vector as #1). -/
def wEntry2 : EmbeddingEntry :=
  ⟨"acme/widgets", 2, "App crashes at launch", "fpB", [1, 0], 7, true⟩

/-- Fixture store entry for issue #4 (same vector as #1, larger number). -/
def wEntry4 : EmbeddingEntry :=
  ⟨"acme/widgets", 4, "Crash at start", "fpD", [1, 0], 9, true⟩

/-- Fixture store entry for issue #3 (orthogonal vector). -/
def wEntry3 : EmbeddingEntry :=
  ⟨"acme/widgets", 3, "Docs typo", "fpC", [0, 1], 6, true⟩

/-- Fixture store holding the four entries. -/
def wDupStore : StoreState := ⟨[wEntry1, wEntry2, wEntry4, wEntry3], []⟩

/-- The ranked result expected from the fixture `duplicates` query. -/
def wRes : DuplicateResult :=
  ⟨1, "acme/widgets", [⟨2, "App crashes at launch", 1⟩, ⟨4, "Crash at start", 1⟩]⟩

/-- Fixture store whose entries already carry the current fingerprints of
the three fixture issues (so a non-forced refresh would skip them all). -/
def wC6Store : StoreState :=
  ⟨[⟨"acme/widgets", 1, wIssue1.title, fingerprint wIssue1, [1, 0], 5, true⟩,
    ⟨"acme/widgets", 2, wIssue2.title, fingerprint wIssue2, [1, 0], 7, true⟩,
    ⟨"acme/widgets", 3, wIssue3.title, fingerprint wIssue3, [1, 0], 6, true⟩],
   [("acme/widgets", 7)]⟩

/-- A record as issue #1 but with leading whitespace added to the title:
the title differs while the normalized content does not. -/
def wIssue1Pad : IssueRecord :=
  ⟨"acme/widgets", 1, " Crash on startup", "App crashes immediately", [], 8⟩


end Dedup

namespace Setup

/-- Configuration variables of `scripts/issue-deduplication/setup_alloydb.sh`
(the shell variables set by the argument-parsing loop). -/
structure SetupConfig where
  projectId : String
  region : String
  cluster : String
  instanceName : String
  dbName : String
  dbPassword : String
  vpcNetwork : String
  serviceAccount : String
  principalSet : String
  ipAddress : String
  deriving Repr, DecidableEq

/-- The default values of `setup_alloydb.sh` (lines 52–62). -/
def defaultConfig : SetupConfig :=
  { projectId := "gc-demo-463422"
    region := "us-central1"
    cluster := "issues-embeddings-cluster"
    instanceName := "primary-instance"
    dbName := "postgres"
    dbPassword := ""
    vpcNetwork := "default"
    serviceAccount := ""
    principalSet := ""
    ipAddress := "" }

/-- How the argument-parsing `while`/`case` loop of the script ends:
`-h`/`--help` exits 0 printing usage; an unknown option exits 1 with an
error; a two-argument flag given as the last argument makes `shift 2`
fail, which under `set -e` aborts the script with status 1; otherwise the
loop completes with the accumulated configuration. -/
inductive ParseResult where
  | helpRequested
  | unknownOption (opt : String)
  | shiftFailure
  | done (c : SetupConfig)
  deriving Repr, DecidableEq

/-- Does this option take a value (`shift 2` in the script)? -/
def takesValue (a : String) : Bool :=
  a = "-p" ∨ a = "--project" ∨ a = "-r" ∨ a = "--region" ∨
  a = "-c" ∨ a = "--cluster" ∨ a = "-i" ∨ a = "--instance" ∨
  a = "-n" ∨ a = "--network" ∨ a = "--db-name" ∨ a = "--db-password" ∨
  a = "-s" ∨ a = "--service-account" ∨ a = "--principal-set" ∨ a = "--ip-address"

/-- Apply one `FLAG VALUE` pair to the configuration (the `case` arms of
lines 104–144). -/
def applyFlag (c : SetupConfig) (a v : String) : SetupConfig :=
  if a = "-p" ∨ a = "--project" then { c with projectId := v }
  else if a = "-r" ∨ a = "--region" then { c with region := v }
  else if a = "-c" ∨ a = "--cluster" then { c with cluster := v }
  else if a = "-i" ∨ a = "--instance" then { c with instanceName := v }
  else if a = "-n" ∨ a = "--network" then { c with vpcNetwork := v }
  else if a = "--db-name" then { c with dbName := v }
  else if a = "--db-password" then { c with dbPassword := v }
  else if a = "-s" ∨ a = "--service-account" then { c with serviceAccount := v }
  else if a = "--principal-set" then { c with principalSet := v }
  else { c with ipAddress := v }

/-- The argument-parsing loop of `setup_alloydb.sh` (lines 103–155). -/
def parseArgs (c : SetupConfig) : List String → ParseResult
  | [] => ParseResult.done c
  | [a] =>
    if a = "-h" ∨ a = "--help" then ParseResult.helpRequested
    else if takesValue a then ParseResult.shiftFailure
    else ParseResult.unknownOption a
  | a :: v :: rest =>
    if a = "-h" ∨ a = "--help" then ParseResult.helpRequested
    else if takesValue a then parseArgs (applyFlag c a v) rest
    else ParseResult.unknownOption a

/-- Observable actions of the script: terminal output, read-only gcloud
invocations, and state-changing gcloud invocations. -/
inductive Action where
  | printed (s : String)
  | printedError (s : String)
  | gcloudRead (s : String)
  | gcloudWrite (s : String)
  deriving Repr, DecidableEq

/-- The cloud environment the script runs against. -/
structure Env where
  activeAuth : Bool
  projectAccessible : Bool
  configProject : String
  deriving Repr, DecidableEq

/-- How far the script gets: an exit with a status code, or reaching the
first state-changing gcloud command (`gcloud services enable`, line 225)
with the validated configuration. -/
inductive ScriptResult where
  | exited (code : Nat)
  | reachedApiEnable (c : SetupConfig)
  deriving Repr, DecidableEq

/-- `setup_alloydb.sh` from invocation through the start of Step 1
(lines 103–226), as a trace of actions plus how the prefix ends: argument
parsing, the initial validation of `--db-password` and of
`--ip-address`/`--service-account` (lines 157–170), project
auto-detection, the authentication and project-access checks, then the
first state-changing command (`gcloud services enable`). -/
def runSetup (env : Env) (args : List String) : List Action × ScriptResult :=
  match parseArgs defaultConfig args with
  | ParseResult.helpRequested =>
    ([Action.printed "AlloyDB Setup Script usage"], ScriptResult.exited 0)
  | ParseResult.unknownOption o =>
    ([Action.printedError ("Unknown option: " ++ o),
      Action.printed "Use --help for usage information."], ScriptResult.exited 1)
  | ParseResult.shiftFailure => ([], ScriptResult.exited 1)
  | ParseResult.done c =>
    let hdr := [Action.printed "Starting AlloyDB Setup"]
    if c.dbPassword = "" then
      (hdr ++ [Action.printedError "Default 'postgres' user password (--db-password) is required."],
       ScriptResult.exited 1)
    else if c.ipAddress = "" ∧ c.serviceAccount = "" then
      (hdr ++ [Action.printedError "When no public IP address is specified (--ip-address), a service account (--service-account) must be provided for authentication via the AlloyDB Auth Proxy."],
       ScriptResult.exited 1)
    else
      let detect :=
        if c.projectId = "" then
          if env.configProject = "" then
            Except.error (hdr ++ [Action.printed "Auto-detecting Google Cloud project...",
              Action.gcloudRead "config get-value project",
              Action.printedError "Could not auto-detect Google Cloud project ID."])
          else
            Except.ok (hdr ++ [Action.printed "Auto-detecting Google Cloud project...",
              Action.gcloudRead "config get-value project"], env.configProject)
        else Except.ok (hdr, c.projectId)
      match detect with
      | Except.error trace => (trace, ScriptResult.exited 1)
      | Except.ok (trace, pid) =>
        let c1 := { c with projectId := pid }
        let trace1 := trace ++ [Action.printed "Using the following configuration:",
          Action.printed "Verifying gcloud authentication...",
          Action.gcloudRead "auth list"]
        if env.activeAuth = false then
          (trace1 ++ [Action.printedError "No active gcloud authentication found. Please run 'gcloud auth login'."],
           ScriptResult.exited 1)
        else
          let trace2 := trace1 ++ [Action.gcloudRead ("projects describe " ++ pid)]
          if env.projectAccessible = false then
            (trace2 ++ [Action.printedError ("Cannot access project '" ++ pid ++ "'. Please verify the ID and your permissions.")],
             ScriptResult.exited 1)
          else
            (trace2 ++ [Action.printed "Authentication and project access verified.",
              Action.printed "Step 1: Enabling required Google Cloud APIs",
              Action.gcloudWrite "services enable"],
             ScriptResult.reachedApiEnable c1)


/-- Fixture cloud environment for the script model. -/
def wEnv : Env := ⟨true, true, ""⟩

end Setup

/-! ## Lemmas and theorems -/

namespace Dedup

section StoreLemmas

lemma find_upsertEntries_self (repo : String) (n : Nat) (ne : EmbeddingEntry)
    (hr : ne.repo = repo) (hn : ne.number = n) (l : List EmbeddingEntry) :
    (upsertEntries repo n ne l).find? (fun e => decide (e.repo = repo ∧ e.number = n)) = some ne := by
  induction l with
  | nil => simp [upsertEntries, List.find?, hr, hn]
  | cons e rest ih =>
    by_cases h : e.repo = repo ∧ e.number = n
    · simp [upsertEntries, h, List.find?, hr, hn]
    · simp only [upsertEntries, if_neg h]
      rw [List.find?_cons_of_neg, ih]
      simpa using h

lemma find_upsertEntries_other (repo : String) (n : Nat) (ne : EmbeddingEntry)
    (hr : ne.repo = repo) (hn : ne.number = n) (repo' : String) (n' : Nat)
    (hkey : ¬(repo' = repo ∧ n' = n)) (l : List EmbeddingEntry) :
    (upsertEntries repo n ne l).find? (fun e => decide (e.repo = repo' ∧ e.number = n')) =
      l.find? (fun e => decide (e.repo = repo' ∧ e.number = n')) := by
  have hne : ¬(ne.repo = repo' ∧ ne.number = n') := by
    rintro ⟨h1, h2⟩
    exact hkey ⟨by rw [← h1, hr], by rw [← h2, hn]⟩
  induction l with
  | nil =>
    simp only [upsertEntries]
    rw [List.find?_cons_of_neg, List.find?_nil]
    simpa using hne
  | cons e rest ih =>
    by_cases h : e.repo = repo ∧ e.number = n
    · have he : ¬(e.repo = repo' ∧ e.number = n') := by
        rintro ⟨h1, h2⟩
        exact hkey ⟨by rw [← h1, h.1], by rw [← h2, h.2]⟩
      simp only [upsertEntries, if_pos h]
      rw [List.find?_cons_of_neg, List.find?_cons_of_neg]
      · simpa using he
      · simpa using hne
    · simp only [upsertEntries, if_neg h]
      by_cases he : e.repo = repo' ∧ e.number = n'
      · rw [List.find?_cons_of_pos, List.find?_cons_of_pos] <;> simpa using he
      · rw [List.find?_cons_of_neg, List.find?_cons_of_neg, ih] <;> simpa using he

lemma getFingerprint_upsert_self (s : StoreState) (repo : String) (n : Nat)
    (title fp : String) (v : List ℚ) (opn : Bool) (ts : Nat) :
    getFingerprint (upsert s repo n title fp v opn ts) repo n = some fp := by
  have hself := find_upsertEntries_self repo n
    (⟨repo, n, title, fp, v, ts, opn⟩ : EmbeddingEntry) rfl rfl s.entries
  unfold upsert
  cases hget : getEntry s repo n with
  | none =>
    simp only [getFingerprint, getEntry]
    rw [hself]
    rfl
  | some e =>
    dsimp only
    by_cases hfp : e.fingerprint = fp
    · rw [if_pos hfp]
      simp only [getFingerprint, hget]
      simp [hfp]
    · rw [if_neg hfp]
      simp only [getFingerprint, getEntry]
      rw [hself]
      rfl

lemma getFingerprint_upsert_other (s : StoreState) (repo : String) (n : Nat)
    (title fp : String) (v : List ℚ) (opn : Bool) (ts : Nat) (repo' : String) (n' : Nat)
    (hkey : ¬(repo' = repo ∧ n' = n)) :
    getFingerprint (upsert s repo n title fp v opn ts) repo' n' = getFingerprint s repo' n' := by
  have hoth := find_upsertEntries_other repo n
    (⟨repo, n, title, fp, v, ts, opn⟩ : EmbeddingEntry) rfl rfl repo' n' hkey s.entries
  unfold upsert
  cases hget : getEntry s repo n with
  | none =>
    simp only [getFingerprint, getEntry]
    rw [hoth]
  | some e =>
    dsimp only
    by_cases hfp : e.fingerprint = fp
    · rw [if_pos hfp]
    · rw [if_neg hfp]
      simp only [getFingerprint, getEntry]
      rw [hoth]

lemma upsert_refreshState (s : StoreState) (repo : String) (n : Nat)
    (title fp : String) (v : List ℚ) (opn : Bool) (ts : Nat) :
    (upsert s repo n title fp v opn ts).refreshState = s.refreshState := by
  unfold upsert
  cases getEntry s repo n with
  | none => rfl
  | some e =>
    by_cases hfp : e.fingerprint = fp
    · simp only [if_pos hfp]
    · simp only [if_neg hfp]

lemma getRefreshState_eq_of_refreshState (s s' : StoreState)
    (h : s'.refreshState = s.refreshState) (repo : String) :
    getRefreshState s' repo = getRefreshState s repo := by
  unfold getRefreshState
  rw [h]

lemma getRefreshState_setRefreshState_self (s : StoreState) (repo : String) (t : Nat) :
    getRefreshState (setRefreshState s repo t) repo = max (getRefreshState s repo) t := by
  simp [getRefreshState, setRefreshState, List.find?]

lemma getRefreshState_resetRefreshState_self (s : StoreState) (repo : String) :
    getRefreshState (resetRefreshState s repo) repo = 0 := by
  simp [getRefreshState, resetRefreshState, List.find?]

lemma setRefreshState_entries (s : StoreState) (repo : String) (t : Nat) :
    (setRefreshState s repo t).entries = s.entries := rfl

lemma resetRefreshState_entries (s : StoreState) (repo : String) :
    (resetRefreshState s repo).entries = s.entries := rfl

lemma getFingerprint_eq_of_entries (s s' : StoreState) (h : s'.entries = s.entries)
    (repo : String) (n : Nat) : getFingerprint s' repo n = getFingerprint s repo n := by
  unfold getFingerprint getEntry
  rw [h]

end StoreLemmas

section FoldLemmas

variable (embedder : Embedder) (repo : String) (force : Bool)

lemma processIssue_eq_skip {st : ProcState} {r : IssueRecord}
    (h : force = false ∧ getFingerprint st.store repo r.number = some (fingerprint r)) :
    processIssue embedder repo force st r = st := by
  unfold processIssue
  rw [if_pos h]

lemma processIssue_eq_ok {st : ProcState} {r : IssueRecord} {v : List ℚ}
    (h : ¬(force = false ∧ getFingerprint st.store repo r.number = some (fingerprint r)))
    (he : embedder (normalize r) = Except.ok v) :
    processIssue embedder repo force st r =
      ⟨upsert st.store repo r.number r.title (fingerprint r) v true r.lastModified,
        st.processed + 1, st.failed, st.calls ++ [r.number]⟩ := by
  unfold processIssue
  rw [if_neg h, he]

lemma processIssue_eq_err {st : ProcState} {r : IssueRecord} {u : Unit}
    (h : ¬(force = false ∧ getFingerprint st.store repo r.number = some (fingerprint r)))
    (he : embedder (normalize r) = Except.error u) :
    processIssue embedder repo force st r =
      { st with failed := st.failed + 1, calls := st.calls ++ [r.number] } := by
  unfold processIssue
  rw [if_neg h, he]

lemma processIssue_refreshState (st : ProcState) (r : IssueRecord) :
    (processIssue embedder repo force st r).store.refreshState = st.store.refreshState := by
  by_cases h : force = false ∧ getFingerprint st.store repo r.number = some (fingerprint r)
  · rw [processIssue_eq_skip embedder repo force h]
  · cases he : embedder (normalize r) with
    | ok v =>
      rw [processIssue_eq_ok embedder repo force h he]
      exact upsert_refreshState _ _ _ _ _ _ _ _
    | error u => rw [processIssue_eq_err embedder repo force h he]

lemma fold_refreshState (l : List IssueRecord) (st : ProcState) :
    (l.foldl (processIssue embedder repo force) st).store.refreshState = st.store.refreshState := by
  induction l generalizing st with
  | nil => rfl
  | cons r rest ih =>
    rw [List.foldl_cons, ih]
    exact processIssue_refreshState embedder repo force st r

lemma getFingerprint_processIssue_other (st : ProcState) (r : IssueRecord)
    (repo' : String) (n' : Nat) (hkey : ¬(repo' = repo ∧ n' = r.number)) :
    getFingerprint (processIssue embedder repo force st r).store repo' n' =
      getFingerprint st.store repo' n' := by
  by_cases h : force = false ∧ getFingerprint st.store repo r.number = some (fingerprint r)
  · rw [processIssue_eq_skip embedder repo force h]
  · cases he : embedder (normalize r) with
    | ok v =>
      rw [processIssue_eq_ok embedder repo force h he]
      exact getFingerprint_upsert_other _ _ _ _ _ _ _ _ _ _ hkey
    | error u => rw [processIssue_eq_err embedder repo force h he]

lemma fold_fp_other (l : List IssueRecord) (st : ProcState) (repo' : String) (n' : Nat)
    (h : ∀ r ∈ l, ¬(repo' = repo ∧ n' = r.number)) :
    getFingerprint (l.foldl (processIssue embedder repo force) st).store repo' n' =
      getFingerprint st.store repo' n' := by
  induction l generalizing st with
  | nil => rfl
  | cons r rest ih =>
    rw [List.foldl_cons, ih _ (fun x hx => h x (List.mem_cons_of_mem r hx))]
    exact getFingerprint_processIssue_other embedder repo force st r repo' n'
      (h r (List.mem_cons_self r rest))

lemma processIssue_calls_sub (st : ProcState) (r : IssueRecord) (n : Nat)
    (h : n ∈ st.calls) : n ∈ (processIssue embedder repo force st r).calls := by
  by_cases hc : force = false ∧ getFingerprint st.store repo r.number = some (fingerprint r)
  · rw [processIssue_eq_skip embedder repo force hc]
    exact h
  · cases he : embedder (normalize r) with
    | ok v =>
      rw [processIssue_eq_ok embedder repo force hc he]
      exact List.mem_append_left _ h
    | error u =>
      rw [processIssue_eq_err embedder repo force hc he]
      exact List.mem_append_left _ h

lemma fold_calls_sub (l : List IssueRecord) (st : ProcState) (n : Nat)
    (h : n ∈ st.calls) : n ∈ (l.foldl (processIssue embedder repo force) st).calls := by
  induction l generalizing st with
  | nil => exact h
  | cons r rest ih =>
    rw [List.foldl_cons]
    exact ih _ (processIssue_calls_sub embedder repo force st r n h)

lemma fold_calls_complete (l : List IssueRecord) (st : ProcState)
    (hnodup : (l.map IssueRecord.number).Nodup) (r : IssueRecord) (hr : r ∈ l)
    (hneeds : ¬(force = false ∧ getFingerprint st.store repo r.number = some (fingerprint r))) :
    r.number ∈ (l.foldl (processIssue embedder repo force) st).calls := by
  induction l generalizing st with
  | nil => exact absurd hr (List.not_mem_nil r)
  | cons r0 rest ih =>
    rw [List.foldl_cons]
    have hnd0 : r0.number ∉ rest.map IssueRecord.number := (List.nodup_cons.mp hnodup).1
    rcases List.mem_cons.mp hr with hhead | htail
    · subst hhead
      have hcall : r.number ∈ (processIssue embedder repo force st r).calls := by
        cases he : embedder (normalize r) with
        | ok v =>
          rw [processIssue_eq_ok embedder repo force hneeds he]
          exact List.mem_append_right _ (List.mem_singleton.mpr rfl)
        | error u =>
          rw [processIssue_eq_err embedder repo force hneeds he]
          exact List.mem_append_right _ (List.mem_singleton.mpr rfl)
      exact fold_calls_sub embedder repo force rest _ r.number hcall
    · have hne : r.number ≠ r0.number := by
        intro hcontra
        exact hnd0 (by rw [← hcontra]; exact List.mem_map_of_mem IssueRecord.number htail)
      have hpres := getFingerprint_processIssue_other embedder repo force st r0 repo r.number
        (by rintro ⟨_, h2⟩; exact hne h2)
      exact ih _ (List.nodup_cons.mp hnodup).2 htail (by rw [hpres]; exact hneeds)

lemma fold_force_calls (l : List IssueRecord) (st : ProcState) :
    (l.foldl (processIssue embedder repo true) st).calls =
      st.calls ++ l.map IssueRecord.number := by
  induction l generalizing st with
  | nil => simp
  | cons r rest ih =>
    rw [List.foldl_cons]
    have hns : ¬((true : Bool) = false ∧
        getFingerprint st.store repo r.number = some (fingerprint r)) := by
      rintro ⟨h1, _⟩
      simp at h1
    have hcalls : (processIssue embedder repo true st r).calls = st.calls ++ [r.number] := by
      cases he : embedder (normalize r) with
      | ok v => rw [processIssue_eq_ok embedder repo true hns he]
      | error u => rw [processIssue_eq_err embedder repo true hns he]
    rw [ih, hcalls]
    simp

lemma fold_skip_all (l : List IssueRecord) (st : ProcState) (hf : force = false)
    (hall : ∀ r ∈ l, getFingerprint st.store repo r.number = some (fingerprint r)) :
    l.foldl (processIssue embedder repo force) st = st := by
  induction l with
  | nil => rfl
  | cons r rest ih =>
    rw [List.foldl_cons,
      processIssue_eq_skip embedder repo force ⟨hf, hall r (List.mem_cons_self r rest)⟩]
    exact ih (fun x hx => hall x (List.mem_cons_of_mem r hx))

lemma fold_fp_of_ok (l : List IssueRecord) (st : ProcState)
    (hnodup : (l.map IssueRecord.number).Nodup) (r : IssueRecord) (hr : r ∈ l)
    (hok : getFingerprint st.store repo r.number = some (fingerprint r) ∨
      embOk embedder r = true) :
    getFingerprint (l.foldl (processIssue embedder repo force) st).store repo r.number =
      some (fingerprint r) := by
  induction l generalizing st with
  | nil => exact absurd hr (List.not_mem_nil r)
  | cons r0 rest ih =>
    rw [List.foldl_cons]
    have hnd0 : r0.number ∉ rest.map IssueRecord.number := (List.nodup_cons.mp hnodup).1
    rcases List.mem_cons.mp hr with hhead | htail
    · subst hhead
      have hst' : getFingerprint (processIssue embedder repo force st r).store repo r.number =
          some (fingerprint r) := by
        by_cases hc : force = false ∧
            getFingerprint st.store repo r.number = some (fingerprint r)
        · rw [processIssue_eq_skip embedder repo force hc]
          exact hc.2
        · cases he : embedder (normalize r) with
          | ok v =>
            rw [processIssue_eq_ok embedder repo force hc he]
            exact getFingerprint_upsert_self _ _ _ _ _ _ _ _
          | error u =>
            rw [processIssue_eq_err embedder repo force hc he]
            rcases hok with hok | hok
            · exact hok
            · exfalso
              unfold embOk at hok
              rw [he] at hok
              simp at hok
      rw [fold_fp_other embedder repo force rest _ repo r.number
        (by
          rintro x hx ⟨_, h2⟩
          exact hnd0 (by rw [h2]; exact List.mem_map_of_mem IssueRecord.number hx))]
      exact hst'
    · have hne : r.number ≠ r0.number := by
        intro hcontra
        exact hnd0 (by rw [← hcontra]; exact List.mem_map_of_mem IssueRecord.number htail)
      have hpres := getFingerprint_processIssue_other embedder repo force st r0 repo r.number
        (by rintro ⟨_, h2⟩; exact hne h2)
      refine ih _ (List.nodup_cons.mp hnodup).2 htail ?_
      rcases hok with hok | hok
      · exact Or.inl (by rw [hpres]; exact hok)
      · exact Or.inr hok

lemma fold_counts (l : List IssueRecord) (st : ProcState)
    (hnodup : (l.map IssueRecord.number).Nodup) :
    (l.foldl (processIssue embedder repo force) st).failed =
      st.failed + (l.filter (fun r =>
        needsEmbed st.store repo force r && !(embOk embedder r))).length ∧
    (l.foldl (processIssue embedder repo force) st).processed =
      st.processed + (l.filter (fun r =>
        needsEmbed st.store repo force r && embOk embedder r)).length := by
  induction l generalizing st with
  | nil => simp
  | cons r0 rest ih =>
    rcases List.nodup_cons.mp hnodup with ⟨hnd0, hndrest⟩
    rw [List.foldl_cons]
    set st' := processIssue embedder repo force st r0 with hst'
    have hcongr : ∀ x ∈ rest,
        needsEmbed st'.store repo force x = needsEmbed st.store repo force x := by
      intro x hx
      have hne : x.number ≠ r0.number := by
        intro hcontra
        exact hnd0 (by rw [← hcontra]; exact List.mem_map_of_mem IssueRecord.number hx)
      unfold needsEmbed
      rw [hst', getFingerprint_processIssue_other embedder repo force st r0 repo x.number
        (by rintro ⟨_, h2⟩; exact hne h2)]
    have ih' := ih st' hndrest
    have hfiltF : rest.filter (fun r =>
        needsEmbed st'.store repo force r && !(embOk embedder r)) =
        rest.filter (fun r => needsEmbed st.store repo force r && !(embOk embedder r)) :=
      List.filter_congr (fun x hx => by rw [hcongr x hx])
    have hfiltP : rest.filter (fun r =>
        needsEmbed st'.store repo force r && embOk embedder r) =
        rest.filter (fun r => needsEmbed st.store repo force r && embOk embedder r) :=
      List.filter_congr (fun x hx => by rw [hcongr x hx])
    rw [hfiltF, hfiltP] at ih'
    by_cases hc : force = false ∧ getFingerprint st.store repo r0.number = some (fingerprint r0)
    · have hneeds : needsEmbed st.store repo force r0 = false := by
        unfold needsEmbed
        exact decide_eq_false (not_not_intro hc)
      have hstq : st' = st := by
        rw [hst']
        exact processIssue_eq_skip embedder repo force hc
      rw [hstq] at ih' ⊢
      refine ⟨?_, ?_⟩
      · rw [ih'.1]
        simp [List.filter_cons, hneeds]
      · rw [ih'.2]
        simp [List.filter_cons, hneeds]
    · have hneeds : needsEmbed st.store repo force r0 = true := by
        unfold needsEmbed
        exact decide_eq_true hc
      cases he : embedder (normalize r0) with
      | ok v =>
        have hok : embOk embedder r0 = true := by
          unfold embOk
          rw [he]
        have hstq : st' =
            ⟨upsert st.store repo r0.number r0.title (fingerprint r0) v true r0.lastModified,
              st.processed + 1, st.failed, st.calls ++ [r0.number]⟩ := by
          rw [hst']
          exact processIssue_eq_ok embedder repo force hc he
        rw [hstq] at ih' ⊢
        refine ⟨?_, ?_⟩
        · rw [ih'.1]
          simp [List.filter_cons, hneeds, hok]
        · rw [ih'.2]
          simp [List.filter_cons, hneeds, hok]
          omega
      | error u =>
        have hok : embOk embedder r0 = false := by
          unfold embOk
          rw [he]
        have hstq : st' = { st with failed := st.failed + 1, calls := st.calls ++ [r0.number] } := by
          rw [hst']
          exact processIssue_eq_err embedder repo force hc he
        rw [hstq] at ih' ⊢
        refine ⟨?_, ?_⟩
        · rw [ih'.1]
          simp [List.filter_cons, hneeds, hok]
          omega
        · rw [ih'.2]
          simp [List.filter_cons, hneeds, hok]

end FoldLemmas

section MaxLemmas

lemma init_le_foldlMax (l : List IssueRecord) (a : Nat) :
    a ≤ l.foldl (fun acc x => max acc x.lastModified) a := by
  induction l generalizing a with
  | nil => exact Nat.le_refl a
  | cons x rest ih =>
    rw [List.foldl_cons]
    exact Nat.le_trans (Nat.le_max_left a x.lastModified) (ih _)

lemma le_maxLastModified (batch : List IssueRecord) (r : IssueRecord) (hr : r ∈ batch) :
    r.lastModified ≤ maxLastModified batch := by
  unfold maxLastModified
  generalize 0 = a
  induction batch generalizing a with
  | nil => exact absurd hr (List.not_mem_nil r)
  | cons x rest ih =>
    rw [List.foldl_cons]
    rcases List.mem_cons.mp hr with hhead | htail
    · subst hhead
      exact Nat.le_trans (Nat.le_max_right a r.lastModified) (init_le_foldlMax rest _)
    · exact ih htail _

end MaxLemmas

section Helpers

/-- Unfolding of `refresh` on a successful fetch. -/
lemma refresh_ok (tracker : Tracker) (embedder : Embedder) (s : StoreState)
    (repo : String) (force : Bool) (batch : List IssueRecord)
    (htr : tracker repo (refreshWindow s repo force) = Except.ok batch) :
    refresh tracker embedder s repo force =
      ⟨Except.ok ⟨(batch.foldl (processIssue embedder repo force)
          ⟨if force then resetRefreshState s repo else s, 0, 0, []⟩).processed,
        (batch.foldl (processIssue embedder repo force)
          ⟨if force then resetRefreshState s repo else s, 0, 0, []⟩).failed⟩,
       if batch.isEmpty then
         (batch.foldl (processIssue embedder repo force)
           ⟨if force then resetRefreshState s repo else s, 0, 0, []⟩).store
       else setRefreshState ((batch.foldl (processIssue embedder repo force)
           ⟨if force then resetRefreshState s repo else s, 0, 0, []⟩).store) repo
           (maxLastModified batch),
       (batch.foldl (processIssue embedder repo force)
         ⟨if force then resetRefreshState s repo else s, 0, 0, []⟩).calls⟩ := by
  unfold refresh
  rw [htr]

/-- Unfolding of `duplicates` on an indexed target. -/
lemma duplicates_ok (sim : List ℚ → List ℚ → ℚ) (s : StoreState) (repo : String)
    (n : Nat) (θ : ℚ) (tgt : EmbeddingEntry) (hget : getEntry s repo n = some tgt) :
    duplicates sim s repo n θ =
      ⟨Except.ok ⟨n, repo, List.insertionSort dupLE
        (((s.entries.filter (fun e => decide (e.repo = repo ∧ e.isOpen = true ∧ e.number ≠ n))).map
          (fun e => DupItem.mk e.number e.title (sim tgt.vector e.vector))).filter
          (fun d => decide (θ ≤ d.score)))⟩, s, 0⟩ := by
  unfold duplicates
  rw [hget]

end Helpers

/-- C1: for every cache state, repository, target issue and threshold, the
list returned by `duplicates` is sorted in descending order of similarity
score with ties broken by ascending candidate issue number (`dupLE`), and
two calls with the same cache state and parameters return element-for-element
identical ordered results. -/
theorem duplicates_ranking_sorted_and_deterministic
    (sim : List ℚ → List ℚ → ℚ) (s : StoreState) (repo : String) (n : Nat)
    (θ : ℚ) (res : DuplicateResult)
    (hok : (duplicates sim s repo n θ).result = Except.ok res) :
    List.Sorted dupLE res.duplicates ∧
    duplicates sim s repo n θ = duplicates sim s repo n θ := by
  refine ⟨?_, rfl⟩
  cases hget : getEntry s repo n with
  | none =>
    unfold duplicates at hok
    rw [hget] at hok
    exact absurd hok (by simp)
  | some tgt =>
    rw [duplicates_ok sim s repo n θ tgt hget] at hok
    dsimp only at hok
    rw [Except.ok.injEq] at hok
    rw [← hok]
    exact List.sorted_insertionSort dupLE _

/-- Witness for C1: the fixture query produces the concrete ranked result
`wRes` (two candidates tied at score 1, listed in ascending issue-number
order), and that result is sorted. -/
theorem duplicates_ranking_sorted_and_deterministic_witness :
    (duplicates wSim wDupStore "acme/widgets" 1 1).result = Except.ok wRes ∧
    (List.Sorted dupLE wRes.duplicates ∧
      duplicates wSim wDupStore "acme/widgets" 1 1 =
        duplicates wSim wDupStore "acme/widgets" 1 1) :=
  ⟨by decide,
   duplicates_ranking_sorted_and_deterministic wSim wDupStore "acme/widgets" 1 1 wRes
     (by decide)⟩

/-- C8: if `duplicates` is called while the target issue has no cached
embedding entry, the call fails with `NotIndexed`, leaves the store
unchanged, and makes no embedding-client call. -/
theorem duplicates_not_indexed
    (sim : List ℚ → List ℚ → ℚ) (s : StoreState) (repo : String) (n : Nat) (θ : ℚ)
    (habs : getEntry s repo n = none) :
    (duplicates sim s repo n θ).result = Except.error DupError.notIndexed ∧
    (duplicates sim s repo n θ).store = s ∧
    (duplicates sim s repo n θ).embedCalls = 0 := by
  unfold duplicates
  rw [habs]
  exact ⟨rfl, rfl, rfl⟩

/-- Witness for C8: querying unindexed issue #99 of the fixture store. -/
theorem duplicates_not_indexed_witness :
    getEntry wDupStore "acme/widgets" 99 = none ∧
    ((duplicates wSim wDupStore "acme/widgets" 99 1).result =
        Except.error DupError.notIndexed ∧
      (duplicates wSim wDupStore "acme/widgets" 99 1).store = wDupStore ∧
      (duplicates wSim wDupStore "acme/widgets" 99 1).embedCalls = 0) :=
  ⟨by decide, duplicates_not_indexed wSim wDupStore "acme/widgets" 99 1 (by decide)⟩

/-- C9: if the issue-tracker fetch fails entirely, `refresh` fails with
`SourceUnavailable` and the store — in particular the repository's stored
watermark — is left unchanged. -/
theorem refresh_source_unavailable_preserves_watermark
    (tracker : Tracker) (embedder : Embedder) (s : StoreState) (repo : String)
    (force : Bool) (u : Unit)
    (htr : tracker repo (refreshWindow s repo force) = Except.error u) :
    (refresh tracker embedder s repo force).result =
        Except.error RefreshError.sourceUnavailable ∧
    (refresh tracker embedder s repo force).store = s ∧
    getRefreshState (refresh tracker embedder s repo force).store repo =
      getRefreshState s repo := by
  have h : refresh tracker embedder s repo force =
      ⟨Except.error RefreshError.sourceUnavailable, s, []⟩ := by
    unfold refresh
    rw [htr]
  rw [h]
  exact ⟨rfl, rfl, rfl⟩

/-- Witness for C9: the always-failing fixture tracker. -/
theorem refresh_source_unavailable_preserves_watermark_witness :
    wTrackerFail "acme/widgets" (refreshWindow StoreState.empty "acme/widgets" false) =
        Except.error () ∧
    ((refresh wTrackerFail wEmbed StoreState.empty "acme/widgets" false).result =
        Except.error RefreshError.sourceUnavailable ∧
      (refresh wTrackerFail wEmbed StoreState.empty "acme/widgets" false).store =
        StoreState.empty ∧
      getRefreshState (refresh wTrackerFail wEmbed StoreState.empty "acme/widgets" false).store
          "acme/widgets" =
        getRefreshState StoreState.empty "acme/widgets") :=
  ⟨rfl, refresh_source_unavailable_preserves_watermark wTrackerFail wEmbed StoreState.empty
    "acme/widgets" false () rfl⟩


/-- C2: every score that `duplicates` returns lies in [0,1] (given that the
deployed similarity metric maps into [0,1]); every open candidate of the
repository whose score is at or above the threshold appears in the result
(in particular one whose score exactly equals the threshold), and every
candidate strictly below the threshold is excluded. -/
theorem duplicates_threshold_and_range
    (sim : List ℚ → List ℚ → ℚ) (s : StoreState) (repo : String) (n : Nat)
    (θ : ℚ) (tgt : EmbeddingEntry) (res : DuplicateResult)
    (hrange : ∀ u v, 0 ≤ sim u v ∧ sim u v ≤ 1)
    (htgt : getEntry s repo n = some tgt)
    (hok : (duplicates sim s repo n θ).result = Except.ok res) :
    (∀ d ∈ res.duplicates, θ ≤ d.score ∧ 0 ≤ d.score ∧ d.score ≤ 1) ∧
    (∀ e ∈ s.entries, e.repo = repo → e.isOpen = true → e.number ≠ n →
      θ ≤ sim tgt.vector e.vector →
      DupItem.mk e.number e.title (sim tgt.vector e.vector) ∈ res.duplicates) ∧
    (∀ e ∈ s.entries, e.repo = repo → e.isOpen = true → e.number ≠ n →
      sim tgt.vector e.vector < θ →
      DupItem.mk e.number e.title (sim tgt.vector e.vector) ∉ res.duplicates) := by
  rw [duplicates_ok sim s repo n θ tgt htgt] at hok
  dsimp only at hok
  rw [Except.ok.injEq] at hok
  subst hok
  refine ⟨?_, ?_, ?_⟩
  · intro d hd
    dsimp only at hd
    rw [List.mem_insertionSort, List.mem_filter] at hd
    obtain ⟨hd1, hd2⟩ := hd
    have hθ : θ ≤ d.score := of_decide_eq_true hd2
    obtain ⟨e, _, rfl⟩ := List.mem_map.mp hd1
    exact ⟨hθ, (hrange tgt.vector e.vector).1, (hrange tgt.vector e.vector).2⟩
  · intro e he h1 h2 h3 h4
    dsimp only
    rw [List.mem_insertionSort]
    refine List.mem_filter.mpr ⟨?_, decide_eq_true h4⟩
    exact List.mem_map.mpr ⟨e, List.mem_filter.mpr ⟨he, decide_eq_true ⟨h1, h2, h3⟩⟩, rfl⟩
  · intro e he h1 h2 h3 h4 hmem
    dsimp only at hmem
    rw [List.mem_insertionSort, List.mem_filter] at hmem
    exact absurd (of_decide_eq_true hmem.2) (not_le.mpr h4)

/-- Witness for C2: the fixture query with threshold 1; candidate scores 1
(equal to the threshold, included twice) and 0 (below, excluded). -/
theorem duplicates_threshold_and_range_witness :
    getEntry wDupStore "acme/widgets" 1 = some wEntry1 ∧
    (duplicates wSim wDupStore "acme/widgets" 1 1).result = Except.ok wRes ∧
    ((∀ d ∈ wRes.duplicates, (1 : ℚ) ≤ d.score ∧ 0 ≤ d.score ∧ d.score ≤ 1) ∧
      (∀ e ∈ wDupStore.entries, e.repo = "acme/widgets" → e.isOpen = true → e.number ≠ 1 →
        (1 : ℚ) ≤ wSim wEntry1.vector e.vector →
        DupItem.mk e.number e.title (wSim wEntry1.vector e.vector) ∈ wRes.duplicates) ∧
      (∀ e ∈ wDupStore.entries, e.repo = "acme/widgets" → e.isOpen = true → e.number ≠ 1 →
        wSim wEntry1.vector e.vector < 1 →
        DupItem.mk e.number e.title (wSim wEntry1.vector e.vector) ∉ wRes.duplicates)) :=
  ⟨by decide, by decide,
   duplicates_threshold_and_range wSim wDupStore "acme/widgets" 1 1 wEntry1 wRes
     (fun u v => by unfold wSim; split <;> norm_num) (by decide) (by decide)⟩

/-- C3: the stored refresh watermark never regresses — `setRefreshState`
only advances it and `upsert` leaves it untouched — and after a successful
`refresh` over a nonempty batch the watermark equals the maximum
last-modified timestamp observed in that batch (not the current time). -/
theorem watermark_monotone_and_batch_max
    (tracker : Tracker) (embedder : Embedder) (s : StoreState) (repo : String)
    (force : Bool) (batch : List IssueRecord)
    (htr : tracker repo (refreshWindow s repo force) = Except.ok batch)
    (hne : batch ≠ [])
    (hwin : force = false → ∀ r ∈ batch, getRefreshState s repo ≤ r.lastModified) :
    getRefreshState (refresh tracker embedder s repo force).store repo =
        maxLastModified batch ∧
    (∀ t, getRefreshState s repo ≤ getRefreshState (setRefreshState s repo t) repo) ∧
    (∀ n title fp v opn ts,
      getRefreshState (upsert s repo n title fp v opn ts) repo = getRefreshState s repo) := by
  refine ⟨?_, ?_, ?_⟩
  · rw [refresh_ok tracker embedder s repo force batch htr]
    dsimp only
    have hcond : ¬(batch.isEmpty = true) := by simp [List.isEmpty_iff, hne]
    rw [if_neg hcond, getRefreshState_setRefreshState_self]
    have hfs := fold_refreshState embedder repo force batch
      ⟨if force then resetRefreshState s repo else s, 0, 0, []⟩
    rw [getRefreshState_eq_of_refreshState _ _ hfs repo]
    cases force with
    | true =>
      rw [if_pos rfl, getRefreshState_resetRefreshState_self]
      exact Nat.max_eq_right (Nat.zero_le _)
    | false =>
      rw [if_neg Bool.false_ne_true]
      obtain ⟨r0, hr0⟩ := List.exists_mem_of_ne_nil batch hne
      exact Nat.max_eq_right ((hwin rfl r0 hr0).trans (le_maxLastModified batch r0 hr0))
  · intro t
    rw [getRefreshState_setRefreshState_self]
    exact Nat.le_max_left _ _
  · intro n title fp v opn ts
    exact getRefreshState_eq_of_refreshState _ _
      (upsert_refreshState s repo n title fp v opn ts) repo

/-- Witness for C3: refreshing the empty store over the fixture tracker
advances the watermark to the largest last-modified timestamp of the
fetched batch. -/
theorem watermark_monotone_and_batch_max_witness :
    wTracker "acme/widgets" (refreshWindow StoreState.empty "acme/widgets" false) =
        Except.ok [wIssue1, wIssue2, wIssue3] ∧
    [wIssue1, wIssue2, wIssue3] ≠ ([] : List IssueRecord) ∧
    (getRefreshState
        (refresh wTracker wEmbed StoreState.empty "acme/widgets" false).store "acme/widgets" =
        maxLastModified [wIssue1, wIssue2, wIssue3] ∧
      (∀ t, getRefreshState StoreState.empty "acme/widgets" ≤
        getRefreshState (setRefreshState StoreState.empty "acme/widgets" t) "acme/widgets") ∧
      (∀ n title fp v opn ts,
        getRefreshState (upsert StoreState.empty "acme/widgets" n title fp v opn ts)
            "acme/widgets" =
          getRefreshState StoreState.empty "acme/widgets")) :=
  ⟨by decide, by decide,
   watermark_monotone_and_batch_max wTracker wEmbed StoreState.empty "acme/widgets" false
     [wIssue1, wIssue2, wIssue3] (by decide) (by decide) (fun _ => by decide)⟩

/-- C6: `refresh` with `force = true` fetches with the epoch window (all
open issues regardless of modification time) and calls the embedding
client for every fetched issue even when its stored fingerprint is
unchanged — `force` bypasses both the watermark window and the
fingerprint skip. -/
theorem refresh_force_bypasses_window_and_skip
    (tracker : Tracker) (embedder : Embedder) (s : StoreState) (repo : String)
    (batch : List IssueRecord)
    (htr : tracker repo 0 = Except.ok batch) :
    refreshWindow s repo true = 0 ∧
    (refresh tracker embedder s repo true).calls = batch.map IssueRecord.number ∧
    ∃ res, (refresh tracker embedder s repo true).result = Except.ok res := by
  have htr' : tracker repo (refreshWindow s repo true) = Except.ok batch := htr
  refine ⟨rfl, ?_, ?_⟩
  · rw [refresh_ok tracker embedder s repo true batch htr']
    dsimp only
    rw [fold_force_calls embedder repo batch _]
    simp
  · rw [refresh_ok tracker embedder s repo true batch htr']
    exact ⟨_, rfl⟩

/-- Witness for C6: a forced refresh over a store whose entries already
hold the current fingerprints of all three fixture issues still calls the
embedding client for all of them (calls = [1, 2, 3]). -/
theorem refresh_force_bypasses_window_and_skip_witness :
    wTracker "acme/widgets" 0 = Except.ok [wIssue1, wIssue2, wIssue3] ∧
    (refreshWindow wC6Store "acme/widgets" true = 0 ∧
      (refresh wTracker wEmbed wC6Store "acme/widgets" true).calls =
        ([wIssue1, wIssue2, wIssue3]).map IssueRecord.number ∧
      ∃ res, (refresh wTracker wEmbed wC6Store "acme/widgets" true).result = Except.ok res) :=
  ⟨by decide,
   refresh_force_bypasses_window_and_skip wTracker wEmbed wC6Store "acme/widgets"
     [wIssue1, wIssue2, wIssue3] (by decide)⟩

/-- A watermark reset does not change which fingerprints are stored. -/
lemma needsEmbed_reset (s : StoreState) (repo : String) (force : Bool) (r : IssueRecord) :
    needsEmbed (resetRefreshState s repo) repo force r = needsEmbed s repo force r := by
  unfold needsEmbed
  rw [getFingerprint_eq_of_entries s (resetRefreshState s repo)
    (resetRefreshState_entries s repo) repo r.number]

/-- Unfolding of a non-forced `refresh` on a successful fetch. -/
lemma refresh_ok_not_forced (tracker : Tracker) (embedder : Embedder) (s : StoreState)
    (repo : String) (batch : List IssueRecord)
    (htr : tracker repo (refreshWindow s repo false) = Except.ok batch) :
    refresh tracker embedder s repo false =
      ⟨Except.ok ⟨(batch.foldl (processIssue embedder repo false) ⟨s, 0, 0, []⟩).processed,
        (batch.foldl (processIssue embedder repo false) ⟨s, 0, 0, []⟩).failed⟩,
       if batch.isEmpty then (batch.foldl (processIssue embedder repo false) ⟨s, 0, 0, []⟩).store
       else setRefreshState ((batch.foldl (processIssue embedder repo false) ⟨s, 0, 0, []⟩).store)
         repo (maxLastModified batch),
       (batch.foldl (processIssue embedder repo false) ⟨s, 0, 0, []⟩).calls⟩ := by
  unfold refresh
  rw [htr]
  rfl

/-- C5: a per-issue embedding failure does not abort the batch: `refresh`
still succeeds, its processed/failed counts are exactly the number of
to-embed issues whose embedding call succeeded resp. failed, and every
to-embed issue whose embedding call succeeded is upserted (its fingerprint
is current in the resulting store). -/
theorem refresh_partial_failure_isolation
    (tracker : Tracker) (embedder : Embedder) (s : StoreState) (repo : String)
    (force : Bool) (batch : List IssueRecord)
    (htr : tracker repo (refreshWindow s repo force) = Except.ok batch)
    (hnodup : (batch.map IssueRecord.number).Nodup) :
    (refresh tracker embedder s repo force).result = Except.ok
      ⟨(batch.filter (fun r => needsEmbed s repo force r && embOk embedder r)).length,
       (batch.filter (fun r => needsEmbed s repo force r && !(embOk embedder r))).length⟩ ∧
    (∀ r ∈ batch, embOk embedder r = true →
      getFingerprint (refresh tracker embedder s repo force).store repo r.number =
        some (fingerprint r)) := by
  rw [refresh_ok tracker embedder s repo force batch htr]
  dsimp only
  have htrans : ∀ r : IssueRecord,
      needsEmbed (if force then resetRefreshState s repo else s) repo force r =
        needsEmbed s repo force r := by
    intro r
    cases force with
    | true => rw [if_pos rfl, needsEmbed_reset]
    | false => rw [if_neg Bool.false_ne_true]
  constructor
  · have hc := fold_counts embedder repo force batch
      ⟨if force then resetRefreshState s repo else s, 0, 0, []⟩ hnodup
    dsimp only at hc
    rw [hc.1, hc.2]
    have hfF : batch.filter (fun r =>
        needsEmbed (if force then resetRefreshState s repo else s) repo force r &&
          !(embOk embedder r)) =
        batch.filter (fun r => needsEmbed s repo force r && !(embOk embedder r)) :=
      List.filter_congr (fun x _ => by rw [htrans x])
    have hfP : batch.filter (fun r =>
        needsEmbed (if force then resetRefreshState s repo else s) repo force r &&
          embOk embedder r) =
        batch.filter (fun r => needsEmbed s repo force r && embOk embedder r) :=
      List.filter_congr (fun x _ => by rw [htrans x])
    rw [hfF, hfP]
    simp
  · intro r hr hok
    have hfp := fold_fp_of_ok embedder repo force batch
      ⟨if force then resetRefreshState s repo else s, 0, 0, []⟩ hnodup r hr (Or.inr hok)
    cases hemp : batch.isEmpty with
    | true =>
      rw [if_pos rfl]
      exact hfp
    | false =>
      rw [if_neg Bool.false_ne_true,
        getFingerprint_eq_of_entries _ _ (setRefreshState_entries _ _ _) repo r.number]
      exact hfp

/-- Witness for C5: with an embedder that fails exactly on fixture issue
#2, a refresh of the three fixture issues succeeds with processed = 2 and
failed = 1, and issues #1 and #3 are upserted. -/
theorem refresh_partial_failure_isolation_witness :
    wTracker "acme/widgets" (refreshWindow StoreState.empty "acme/widgets" false) =
        Except.ok [wIssue1, wIssue2, wIssue3] ∧
    (([wIssue1, wIssue2, wIssue3]).map IssueRecord.number).Nodup ∧
    (refresh wTracker wEmbedFail2 StoreState.empty "acme/widgets" false).result =
        Except.ok ⟨2, 1⟩ ∧
    ((refresh wTracker wEmbedFail2 StoreState.empty "acme/widgets" false).result = Except.ok
        ⟨(([wIssue1, wIssue2, wIssue3]).filter (fun r =>
            needsEmbed StoreState.empty "acme/widgets" false r && embOk wEmbedFail2 r)).length,
         (([wIssue1, wIssue2, wIssue3]).filter (fun r =>
            needsEmbed StoreState.empty "acme/widgets" false r && !(embOk wEmbedFail2 r))).length⟩ ∧
      (∀ r ∈ [wIssue1, wIssue2, wIssue3], embOk wEmbedFail2 r = true →
        getFingerprint (refresh wTracker wEmbedFail2 StoreState.empty "acme/widgets" false).store
            "acme/widgets" r.number =
          some (fingerprint r))) :=
  ⟨by decide, by decide, by decide,
   refresh_partial_failure_isolation wTracker wEmbedFail2 StoreState.empty "acme/widgets" false
     [wIssue1, wIssue2, wIssue3] (by decide) (by decide)⟩

/-- C4: a second non-forced `refresh` over an unchanged issue set performs
zero embedding-client calls, rewrites no store entry, and reports zero
processed and zero failed issues (the fingerprint match short-circuits). -/
theorem refresh_idempotent_second_pass
    (tracker : Tracker) (embedder : Embedder) (s : StoreState) (repo : String)
    (batch1 batch2 : List IssueRecord) (res1 : RefreshResult)
    (htr1 : tracker repo (refreshWindow s repo false) = Except.ok batch1)
    (hnodup1 : (batch1.map IssueRecord.number).Nodup)
    (hres : (refresh tracker embedder s repo false).result = Except.ok res1)
    (hfail : res1.failed = 0)
    (htr2 : tracker repo
        (refreshWindow (refresh tracker embedder s repo false).store repo false) =
      Except.ok batch2)
    (hsub : ∀ r ∈ batch2, r ∈ batch1) :
    (refresh tracker embedder
        (refresh tracker embedder s repo false).store repo false).calls = [] ∧
    (refresh tracker embedder
        (refresh tracker embedder s repo false).store repo false).store.entries =
      (refresh tracker embedder s repo false).store.entries ∧
    (refresh tracker embedder
        (refresh tracker embedder s repo false).store repo false).result =
      Except.ok ⟨0, 0⟩ := by
  have hre1 := refresh_ok_not_forced tracker embedder s repo batch1 htr1
  have hfail0 : (batch1.foldl (processIssue embedder repo false) ⟨s, 0, 0, []⟩).failed = 0 := by
    rw [hre1] at hres
    dsimp only at hres
    rw [Except.ok.injEq] at hres
    rw [← hres] at hfail
    exact hfail
  have hcounts := fold_counts embedder repo false batch1 ⟨s, 0, 0, []⟩ hnodup1
  have hforall : ∀ r ∈ batch1,
      getFingerprint s repo r.number = some (fingerprint r) ∨ embOk embedder r = true := by
    have hlen : (batch1.filter (fun r =>
        needsEmbed s repo false r && !(embOk embedder r))).length = 0 := by
      have h1 := hcounts.1
      dsimp only at h1
      rw [hfail0] at h1
      omega
    have hnil := List.filter_eq_nil_iff.mp (List.length_eq_zero.mp hlen)
    intro r hr
    cases hne : needsEmbed s repo false r with
    | false =>
      unfold needsEmbed at hne
      exact Or.inl (not_not.mp (of_decide_eq_false hne)).2
    | true =>
      right
      cases hcase : embOk embedder r with
      | true => rfl
      | false =>
        exfalso
        apply hnil r hr
        rw [hne, hcase]
        rfl
  have hfp1 : ∀ r ∈ batch1,
      getFingerprint (refresh tracker embedder s repo false).store repo r.number =
        some (fingerprint r) := by
    intro r hr
    have hfp := fold_fp_of_ok embedder repo false batch1 ⟨s, 0, 0, []⟩ hnodup1 r hr
      (hforall r hr)
    rw [hre1]
    dsimp only
    cases hemp : batch1.isEmpty with
    | true =>
      rw [if_pos rfl]
      exact hfp
    | false =>
      rw [if_neg Bool.false_ne_true,
        getFingerprint_eq_of_entries _ _ (setRefreshState_entries _ _ _) repo r.number]
      exact hfp
  have hre2 := refresh_ok_not_forced tracker embedder
    (refresh tracker embedder s repo false).store repo batch2 htr2
  have hskip : batch2.foldl (processIssue embedder repo false)
      ⟨(refresh tracker embedder s repo false).store, 0, 0, []⟩ =
      ⟨(refresh tracker embedder s repo false).store, 0, 0, []⟩ :=
    fold_skip_all embedder repo false batch2 _ rfl (fun r hr => hfp1 r (hsub r hr))
  refine ⟨?_, ?_, ?_⟩
  · rw [hre2]
    dsimp only
    rw [hskip]
  · rw [hre2]
    dsimp only
    cases hemp2 : batch2.isEmpty with
    | true =>
      rw [if_pos rfl, hskip]
    | false =>
      rw [if_neg Bool.false_ne_true, hskip, setRefreshState_entries]
  · rw [hre2]
    dsimp only
    rw [hskip]

/-- Witness for C4: refreshing the empty store over the fixture issues,
then refreshing again with no changes: the second pass makes no embedding
call, leaves the entries untouched, and reports 0 processed / 0 failed. -/
theorem refresh_idempotent_second_pass_witness :
    wTracker "acme/widgets" (refreshWindow StoreState.empty "acme/widgets" false) =
        Except.ok [wIssue1, wIssue2, wIssue3] ∧
    (([wIssue1, wIssue2, wIssue3]).map IssueRecord.number).Nodup ∧
    (refresh wTracker wEmbed StoreState.empty "acme/widgets" false).result =
        Except.ok ⟨3, 0⟩ ∧
    wTracker "acme/widgets"
        (refreshWindow (refresh wTracker wEmbed StoreState.empty "acme/widgets" false).store
          "acme/widgets" false) =
      Except.ok [wIssue2] ∧
    ((refresh wTracker wEmbed
        (refresh wTracker wEmbed StoreState.empty "acme/widgets" false).store
        "acme/widgets" false).calls = [] ∧
      (refresh wTracker wEmbed
          (refresh wTracker wEmbed StoreState.empty "acme/widgets" false).store
          "acme/widgets" false).store.entries =
        (refresh wTracker wEmbed StoreState.empty "acme/widgets" false).store.entries ∧
      (refresh wTracker wEmbed
          (refresh wTracker wEmbed StoreState.empty "acme/widgets" false).store
          "acme/widgets" false).result = Except.ok ⟨0, 0⟩) :=
  ⟨by decide, by decide, by decide, by decide,
   refresh_idempotent_second_pass wTracker wEmbed StoreState.empty "acme/widgets"
     [wIssue1, wIssue2, wIssue3] [wIssue2] ⟨3, 0⟩ (by decide) (by decide) (by decide) rfl
     (by decide) (by decide)⟩

/-- Counterexample to C7: adding leading whitespace to an issue's title is
a change of the title, yet the normalized content — and therefore the
fingerprint — is unchanged, because normalization trims leading/trailing
whitespace. So not every change to title, body or comments changes the
fingerprint. -/
theorem fingerprint_title_change_counterexample :
    wIssue1Pad.title ≠ wIssue1.title ∧ fingerprint wIssue1Pad = fingerprint wIssue1 := by
  constructor
  · decide
  · decide

/-- C7 (amended): the ContentFingerprint is a deterministic, injective
function of the normalized content — two IssueRecords have equal
fingerprints exactly when their normalized content is equal — and any
issue whose stored fingerprint differs from its newly computed one is
re-embedded (the embedding client is called for it) on the next
non-forced `refresh`. -/
theorem fingerprint_normalized_content_invariant
    (tracker : Tracker) (embedder : Embedder) (s : StoreState) (repo : String)
    (batch : List IssueRecord) (r : IssueRecord)
    (htr : tracker repo (refreshWindow s repo false) = Except.ok batch)
    (hnodup : (batch.map IssueRecord.number).Nodup)
    (hr : r ∈ batch)
    (hchanged : getFingerprint s repo r.number ≠ some (fingerprint r)) :
    (∀ r1 r2 : IssueRecord, normalize r1 = normalize r2 ↔ fingerprint r1 = fingerprint r2) ∧
    r.number ∈ (refresh tracker embedder s repo false).calls := by
  constructor
  · intro r1 r2
    exact Iff.rfl
  · rw [refresh_ok_not_forced tracker embedder s repo batch htr]
    dsimp only
    exact fold_calls_complete embedder repo false batch ⟨s, 0, 0, []⟩ hnodup r hr
      (by rintro ⟨_, h2⟩; exact hchanged h2)

/-- Witness for C7 (amended): issue #1 is not yet indexed in the empty
store, so the first refresh calls the embedding client for it. -/
theorem fingerprint_normalized_content_invariant_witness :
    wTracker "acme/widgets" (refreshWindow StoreState.empty "acme/widgets" false) =
        Except.ok [wIssue1, wIssue2, wIssue3] ∧
    (([wIssue1, wIssue2, wIssue3]).map IssueRecord.number).Nodup ∧
    wIssue1 ∈ [wIssue1, wIssue2, wIssue3] ∧
    getFingerprint StoreState.empty "acme/widgets" wIssue1.number ≠
      some (fingerprint wIssue1) ∧
    ((∀ r1 r2 : IssueRecord,
        normalize r1 = normalize r2 ↔ fingerprint r1 = fingerprint r2) ∧
      wIssue1.number ∈ (refresh wTracker wEmbed StoreState.empty "acme/widgets" false).calls) :=
  ⟨by decide, by decide, by decide, by decide,
   fingerprint_normalized_content_invariant wTracker wEmbed StoreState.empty "acme/widgets"
     [wIssue1, wIssue2, wIssue3] wIssue1 (by decide) (by decide) (by decide) (by decide)⟩

end Dedup

namespace Setup

/-- Counterexample to C10: invoking `setup_alloydb.sh --help` is an
invocation in which `--db-password` is empty (it is never supplied), yet
the script prints the usage text and exits with status 0 — it does not
print an error or exit with status 1 during initial validation. -/
theorem validation_help_flag_counterexample :
    (runSetup wEnv ["--help"]).2 = ScriptResult.exited 0 ∧
    (runSetup wEnv ["--help"]).1 = [Action.printed "AlloyDB Setup Script usage"] ∧
    "--db-password" ∉ ["--help"] := by
  refine ⟨by decide, by decide, by decide⟩

/-- C10 (amended): for every invocation whose argument parsing completes
(no `-h`/`--help`, no unknown option, no two-argument flag missing its
value), if the resulting `--db-password` is empty, or both `--ip-address`
and `--service-account` are absent, the script prints an error and
terminates with exit status 1 during initial validation, before invoking
any gcloud command — state-changing or read-only — in any environment. -/
theorem validation_rejects_before_state_change
    (env : Env) (args : List String) (c : SetupConfig)
    (hparse : parseArgs defaultConfig args = ParseResult.done c)
    (hcond : c.dbPassword = "" ∨ (c.ipAddress = "" ∧ c.serviceAccount = "")) :
    (runSetup env args).2 = ScriptResult.exited 1 ∧
    (∃ m, Action.printedError m ∈ (runSetup env args).1) ∧
    (∀ a ∈ (runSetup env args).1, ∀ cmd,
      a ≠ Action.gcloudWrite cmd ∧ a ≠ Action.gcloudRead cmd) := by
  unfold runSetup
  rw [hparse]
  dsimp only
  by_cases hpw : c.dbPassword = ""
  · rw [if_pos hpw]
    refine ⟨rfl,
      ⟨"Default 'postgres' user password (--db-password) is required.", by simp⟩, ?_⟩
    intro a ha cmd
    simp only [List.cons_append, List.nil_append, List.mem_cons, List.not_mem_nil,
      or_false] at ha
    rcases ha with rfl | rfl
    · exact ⟨fun h => Action.noConfusion h, fun h => Action.noConfusion h⟩
    · exact ⟨fun h => Action.noConfusion h, fun h => Action.noConfusion h⟩
  · have hip : c.ipAddress = "" ∧ c.serviceAccount = "" := hcond.resolve_left hpw
    rw [if_neg hpw, if_pos hip]
    refine ⟨rfl, ⟨"When no public IP address is specified (--ip-address), a service account (--service-account) must be provided for authentication via the AlloyDB Auth Proxy.", by simp⟩, ?_⟩
    intro a ha cmd
    simp only [List.cons_append, List.nil_append, List.mem_cons, List.not_mem_nil,
      or_false] at ha
    rcases ha with rfl | rfl
    · exact ⟨fun h => Action.noConfusion h, fun h => Action.noConfusion h⟩
    · exact ⟨fun h => Action.noConfusion h, fun h => Action.noConfusion h⟩

/-- Witness for C10 (amended): running the script with no arguments
parses to the default configuration, whose `--db-password` is empty, so
the script exits 1 with an error before touching gcloud. -/
theorem validation_rejects_before_state_change_witness :
    parseArgs defaultConfig [] = ParseResult.done defaultConfig ∧
    (defaultConfig.dbPassword = "" ∨
      (defaultConfig.ipAddress = "" ∧ defaultConfig.serviceAccount = "")) ∧
    ((runSetup wEnv []).2 = ScriptResult.exited 1 ∧
      (∃ m, Action.printedError m ∈ (runSetup wEnv []).1) ∧
      (∀ a ∈ (runSetup wEnv []).1, ∀ cmd,
        a ≠ Action.gcloudWrite cmd ∧ a ≠ Action.gcloudRead cmd)) :=
  ⟨rfl, Or.inl rfl,
   validation_rejects_before_state_change wEnv [] defaultConfig rfl (Or.inl rfl)⟩

end Setup
